import Mathlib

/-
Verification development for the BGCSL enrollment matcher and writer
(src/main.py and src/process_enrollments.py).

Modelling conventions:
  * A pandas timestamp is modelled as a `Nat` (an abstract day ordinal);
    a nullable cell is `Option _` (`none` is NaN/NaT/None/pd.NA).
  * The thefuzz scorer `fuzz.token_set_ratio` is an external capability and
    is passed in as an abstract function `score : String → String → Nat`.
  * Boolean masks built from `==` on nullable pandas columns treat NA as
    False, so `df[df.BD == bd]` is `List.filter (fun r => r.BD = some bd)`.
-/

namespace BGCSL

/-- Prepared row of the registry DataFrame `df_stu_data` (after
`to_datetime` on BD, `fullname = FN + " " + LN`, `to_numeric` on ID and GR,
`str.strip` on NM), as built by `match_students` / `load_student_data`. -/
structure StudentRow where
  ID : Option Int
  fullname : String
  BD : Option Nat
  NM : String
  GR : Option Int
deriving DecidableEq, Repr

/-- Prepared row of the incoming enrollment sheet (after header
normalization, title-cased `fullname`, `to_datetime` with coerce on the
birthdate, `to_numeric` with coerce on School ID, and
`astype(str).str.strip()` on Course Option Location — which turns a missing
location into the literal string "nan", making `notna` on it vacuous). -/
structure SheetRow where
  fullname : String
  birthdate : Option Nat
  schoolId : Option Int
  location : String
deriving DecidableEq, Repr

/-- Result Series of `find_best_match`: the `match_type` tag, the `notes`
text, and the matched registry row merged in (`data = none` models the
no-match branch where every registry-side column is set to None). -/
structure MatchResult where
  match_type : String
  notes : String
  data : Option StudentRow
deriving DecidableEq, Repr

/-- Model of `thefuzz.process.extractOne(query, candidates, scorer)`:
score every candidate and return the best (name, score) pair, the
first-listed candidate winning ties (Python `max` keeps the first maximal
element); `None` only on an empty candidate list. -/
def extractOne (score : String → String → Nat) (q : String) :
    List String → Option (String × Nat)
  | [] => none
  | c :: cs =>
    match extractOne score q cs with
    | none => some (c, score q c)
    | some (b, sb) => if score q c ≥ sb then some (c, score q c) else some (b, sb)

/-- Mismatch note built in strategy 2 of `find_best_match` (quotes around
the two names elided). -/
def mismatch_note (name_score : Nat) (csv_name db_name : String) : String :=
  "Name mismatch (score: " ++ toString name_score ++ "). CSV: " ++ csv_name
    ++ ", DB: " ++ db_name ++ "."

/-- Strategy 1 of `find_best_match` (Fuzzy Name + Birthdate): if the
enrollee birthdate is present, filter the registry on exact birthdate
equality; on a non-empty candidate set run `extractOne`, and qualify only
when the best score is strictly greater than the threshold; the matched
row is the first candidate carrying the winning fullname (`.iloc[0]`). -/
def strategy1 (score : String → String → Nat) (row : SheetRow)
    (stu_data_df : List StudentRow) (fuzz_threshold : Nat) : Option MatchResult :=
  match row.birthdate with
  | none => none
  | some bd =>
    let possible_matches_bd := stu_data_df.filter (fun r => decide (r.BD = some bd))
    if possible_matches_bd.isEmpty then none
    else
      match extractOne score row.fullname (possible_matches_bd.map (fun r => r.fullname)) with
      | none => none
      | some (best_name, best_score) =>
        if best_score > fuzz_threshold then
          match possible_matches_bd.filter (fun r => decide (r.fullname = best_name)) with
          | [] => none
          | matched_row :: _ =>
            some ⟨"Fuzzy Name + Birthdate",
                  "Name match score: " ++ toString best_score ++ ".",
                  some matched_row⟩
        else none

/-- Strategy 2 of `find_best_match` (School ID): if the enrollee School ID
is present, filter the registry on exact identifier equality; on a
non-empty candidate set take the first row unconditionally, computing the
pairwise name score only to populate a mismatch note when the score is at
or below the threshold. -/
def strategy2 (score : String → String → Nat) (row : SheetRow)
    (stu_data_df : List StudentRow) (fuzz_threshold : Nat) : Option MatchResult :=
  match row.schoolId with
  | none => none
  | some sid =>
    match stu_data_df.filter (fun r => decide (r.ID = some sid)) with
    | [] => none
    | matched_row :: _ =>
      let name_score := score row.fullname matched_row.fullname
      let notes := if name_score ≤ fuzz_threshold then
          mismatch_note name_score row.fullname matched_row.fullname
        else ""
      some ⟨"School ID", notes, some matched_row⟩

/-- Strategy 3 of `find_best_match` (Fuzzy Name + Course Location): skipped
when the location string is the literal "nan" (the `notna` guard is vacuous
after `astype(str)`); otherwise identical to strategy 1 with the filter on
exact trimmed site-name equality. -/
def strategy3 (score : String → String → Nat) (row : SheetRow)
    (stu_data_df : List StudentRow) (fuzz_threshold : Nat) : Option MatchResult :=
  if row.location = "nan" then none
  else
    let possible_matches_loc := stu_data_df.filter (fun r => decide (r.NM = row.location))
    if possible_matches_loc.isEmpty then none
    else
      match extractOne score row.fullname (possible_matches_loc.map (fun r => r.fullname)) with
      | none => none
      | some (best_name, best_score) =>
        if best_score > fuzz_threshold then
          match possible_matches_loc.filter (fun r => decide (r.fullname = best_name)) with
          | [] => none
          | matched_row :: _ =>
            some ⟨"Fuzzy Name + Location",
                  "Name match score: " ++ toString best_score ++ ".",
                  some matched_row⟩
        else none

/-- Default `fuzz_threshold` argument of `find_best_match`. -/
def default_fuzz_threshold : Nat := 85

/-- The Match Resolver `find_best_match(row, stu_data_df, fuzz_threshold)`:
the three strategies tried in order; each early `return` in the Python body
is a `some` here, and falling off the end yields the No Match Series with
empty notes and every registry column None. -/
def find_best_match (score : String → String → Nat) (row : SheetRow)
    (stu_data_df : List StudentRow) (fuzz_threshold : Nat) : MatchResult :=
  match strategy1 score row stu_data_df fuzz_threshold with
  | some r => r
  | none =>
    match strategy2 score row stu_data_df fuzz_threshold with
    | some r => r
    | none =>
      match strategy3 score row stu_data_df fuzz_threshold with
      | some r => r
      | none => ⟨"No Match", "", none⟩

/-- Lookup in the `grade_map` dict of src/main.py (lines 16-28); a token
absent from the dict maps to NaN under `Series.map`, modelled as `none`. -/
def grade_map (s : String) : Option Int :=
  if s = "8" then some 8
  else if s = "3" then some 3
  else if s = "2" then some 2
  else if s = "4" then some 4
  else if s = "5" then some 5
  else if s = "6" then some 6
  else if s = "7" then some 7
  else if s = "1" then some 1
  else if s = "9" then some 9
  else if s = "00JK" then some (-1)
  else if s = "0K" then some 0
  else none

/-- Lookup in the `GRADE_MAP` dict of src/process_enrollments.py (lines
65-81); a token absent from the dict maps to NaN under `Series.map`,
modelled as `none`. -/
def GRADE_MAP (s : String) : Option Int :=
  if s = "0" then some 0
  else if s = "1" then some 1
  else if s = "2" then some 2
  else if s = "3" then some 3
  else if s = "4" then some 4
  else if s = "5" then some 5
  else if s = "6" then some 6
  else if s = "7" then some 7
  else if s = "8" then some 8
  else if s = "9" then some 9
  else if s = "10" then some 10
  else if s = "0K" then some 0
  else if s = "00JK" then some (-1)
  else if s = "-1JK" then some (-1)
  else if s = "-1" then some (-1)
  else none

/-- One row of the `PGM` event table written by `add_program_batch`:
student identifier, per-student sequence number, program code, start date. -/
structure Event where
  id : Int
  sq : Int
  pgm : Int
  start : Option Nat
deriving DecidableEq, Repr

/-- State of the enrollment-event table in the Aeries database. -/
structure DB where
  events : List Event
deriving DecidableEq, Repr

/-- Modelled from the spec: the SQL text `sql.pgm_code_check` is built by
`core.build_sql_object()` and is not under src/; per the spec it queries
for an existing enrollment event keyed by (identifier, program_code). -/
def pgm_code_check (db : DB) (i : Int) (pgm_code : Int) : Bool :=
  db.events.any (fun e => decide (e.id = i ∧ e.pgm = pgm_code))

/-- Maximum sequence number occurring in a list of events, `none` if the
list is empty. -/
def maxSq : List Event → Option Int
  | [] => none
  | e :: es =>
    match maxSq es with
    | none => some e.sq
    | some m => some (max e.sq m)

/-- Modelled from the spec: the SQL text `sql.last_pgm_sq` is built by
`core.build_sql_object()` and is not under src/; per the spec it returns
the highest prior sequence number for this identifier across any program
code (empty result if the student has no events). -/
def last_pgm_sq (db : DB) (i : Int) : Option Int :=
  maxSq (db.events.filter (fun e => decide (e.id = i)))

/-- Python `get_next_pgm_sq(id, aeries_cnxn)` of src/main.py (lines
170-177): 1 when the query result is empty, otherwise the returned
sequence number plus one. -/
def get_next_pgm_sq (db : DB) (i : Int) : Int :=
  match last_pgm_sq db i with
  | none => 1
  | some sq => sq + 1

/-- Modelled from the spec: the SQL text `sql.insert_pgm` is built by
`core.build_sql_object()` and is not under src/; per the spec it inserts
one enrollment event row. -/
def insert_pgm (db : DB) (e : Event) : DB :=
  ⟨db.events ++ [e]⟩

/-- Contents of the `Enrollment Start Date` cell of a matched row before
`to_datetime` is applied: missing (None/NaN), a parseable date, or an
unparseable string. -/
inductive DateCell where
  | missing : DateCell
  | valid : Nat → DateCell
  | invalid : String → DateCell
deriving DecidableEq, Repr

/-- Model of `pandas.to_datetime` as called at src/main.py line 259: the
`errors` argument is left at its default `raise`, so a missing cell gives
NaT (which `pd.isna` then turns into the None parameter), a parseable cell
gives its timestamp, and an unparseable cell raises. -/
def to_datetime : DateCell → Except String (Option Nat)
  | .missing => .ok none
  | .valid d => .ok (some d)
  | .invalid s => .error s

/-- Fields of one row of the matched DataFrame that `add_program_batch`
reads: the registry-side `ID` column (None for No Match rows) and the
raw `Enrollment Start Date` cell. -/
structure MatchedRow where
  ID : Option Int
  startDate : DateCell
deriving DecidableEq, Repr

/-- Python `add_program_batch(data, pgm_code)` of src/main.py (lines
241-281), with a fault-injection parameter `failInsert` deciding whether
the insert of a given event raises a database error. Per row: a missing
ID appends the row to `rejected_rows` and continues; an existing
(id, pgm_code) event skips the row; otherwise the next sequence number is
computed, the start date converted (raising on an unparseable cell), and
the event inserted and committed before the next row is examined. An
exception (`.error`) carries the state with all previously committed
inserts retained, aborts the remainder of the batch, and skips the final
`rejected_rows.to_csv` step (the `row.empty` guard of line 245 is dropped:
a Series drawn from a DataFrame with columns is never empty). -/
def add_program_batch (failInsert : Event → Bool) (pgm_code : Int) :
    List MatchedRow → DB → List MatchedRow → Except DB (DB × List MatchedRow)
  | [], db, rejected_rows => .ok (db, rejected_rows)
  | row :: rest, db, rejected_rows =>
    match row.ID with
    | none => add_program_batch failInsert pgm_code rest db (rejected_rows ++ [row])
    | some i =>
      if pgm_code_check db i pgm_code then
        add_program_batch failInsert pgm_code rest db rejected_rows
      else
        let next_sq := get_next_pgm_sq db i
        match to_datetime row.startDate with
        | .error _ => .error db
        | .ok start_date_param =>
          let ev : Event := ⟨i, next_sq, pgm_code, start_date_param⟩
          if failInsert ev then .error db
          else add_program_batch failInsert pgm_code rest (insert_pgm db ev) rejected_rows

/-- One enrollment CSV file of the intake folder, abstracted to its name
and the matched rows that `match_students` produces for it. -/
structure FileJob where
  name : String
  rows : List MatchedRow
deriving DecidableEq, Repr

/-- The per-file loop of `process_enrollment_folder` (src/main.py lines
210-239), abstracted over the already-performed steps that cannot fail in
this model (matching and CSV output). Each file's batch runs under the
try/except of the loop body: when `add_program_batch` raises, the
exception is logged and the loop continues with the NEXT FILE — the file
is not appended to `processed_files.txt`; when the batch returns normally
the file name is appended to the ledger. -/
def process_enrollment_folder (failInsert : Event → Bool) (pgm_code : Int) :
    List FileJob → DB → List String → DB × List String
  | [], db, ledger => (db, ledger)
  | f :: fs, db, ledger =>
    match add_program_batch failInsert pgm_code f.rows db [] with
    | .error dbAfter => process_enrollment_folder failInsert pgm_code fs dbAfter ledger
    | .ok (dbAfter, _) =>
      process_enrollment_folder failInsert pgm_code fs dbAfter (ledger ++ [f.name])

/-- Decidable statement of the database invariant of interest: no two
event rows share the same (identifier, program_code) key. -/
def no_dup_key : List Event → Bool
  | [] => true
  | e :: es =>
    !(es.any (fun x => decide (x.id = e.id ∧ x.pgm = e.pgm))) && no_dup_key es

/-! Helper lemmas about the embedded operations. -/

/-- The name returned by `extractOne` is one of the candidates and its
score is the scorer applied to it. -/
theorem extractOne_mem (score : String → String → Nat) (q : String)
    (l : List String) (nm : String) (s : Nat)
    (h : extractOne score q l = some (nm, s)) : nm ∈ l ∧ s = score q nm := by
  induction l with
  | nil => simp [extractOne] at h
  | cons c cs ih =>
    unfold extractOne at h
    cases hrec : extractOne score q cs with
    | none =>
      rw [hrec] at h
      simp at h
      obtain ⟨rfl, hs⟩ := h
      exact ⟨List.mem_cons_self _ _, hs.symm⟩
    | some p =>
      rw [hrec] at h
      by_cases hge : score q c ≥ p.2
      · simp [hge] at h
        obtain ⟨rfl, hs⟩ := h
        exact ⟨List.mem_cons_self _ _, hs.symm⟩
      · simp [hge] at h
        rw [h] at hrec
        rcases ih hrec with ⟨hmem, hsc⟩
        exact ⟨List.mem_cons_of_mem _ hmem, hsc⟩

/-- If a name occurs among the fullnames of a row list then the filter on
that fullname is non-empty and its head carries that fullname. -/
theorem filter_fullname_cons (l : List StudentRow) (nm : String)
    (h : nm ∈ l.map (fun r => r.fullname)) :
    ∃ m ms, l.filter (fun r => decide (r.fullname = nm)) = m :: ms ∧
      m.fullname = nm := by
  induction l with
  | nil => simp at h
  | cons c cs ih =>
    by_cases hc : c.fullname = nm
    · exact ⟨c, cs.filter (fun r => decide (r.fullname = nm)),
        by simp [List.filter_cons, hc], hc⟩
    · have h2 : nm ∈ cs.map (fun r => r.fullname) := by
        rcases List.mem_map.mp h with ⟨a, ha, hfa⟩
        rcases List.mem_cons.mp ha with rfl | ha2
        · exact absurd hfa hc
        · exact List.mem_map.mpr ⟨a, ha2, hfa⟩
      rcases ih h2 with ⟨m, ms, hf, hm⟩
      exact ⟨m, ms, by simp [List.filter_cons, hc, hf], hm⟩

/-- The strategy-2 mismatch note is never the empty string. -/
theorem mismatch_note_ne_empty (ns : Nat) (a b : String) :
    mismatch_note ns a b ≠ "" := by
  intro h
  have hd := congrArg String.data h
  simp [mismatch_note, String.data_append] at hd

/-- A qualifying strategy-1 result always carries the Fuzzy Name +
Birthdate tag. -/
theorem strategy1_some_tag (score : String → String → Nat) (row : SheetRow)
    (stu : List StudentRow) (th : Nat) (r : MatchResult)
    (h : strategy1 score row stu th = some r) :
    r.match_type = "Fuzzy Name + Birthdate" := by
  unfold strategy1 at h
  split at h
  · exact absurd h (by simp)
  · dsimp only at h
    split at h
    · exact absurd h (by simp)
    · split at h
      · exact absurd h (by simp)
      · split at h
        · split at h
          · exact absurd h (by simp)
          · simp only [Option.some.injEq] at h
            rw [← h]
        · exact absurd h (by simp)

/-! Claim theorems. -/

/-- C1: the Match Resolver applies its strategies in strict priority
order: whenever strategy 1 (fuzzy name + birthdate) yields a qualifying
match `r1`, `find_best_match` returns `r1` — tagged Fuzzy Name +
Birthdate — and never the result `r2` of strategy 2 (identifier
equality), even when strategy 2 also qualifies with a different registry
row. -/
theorem find_best_match_strategy1_priority (score : String → String → Nat)
    (row : SheetRow) (stu : List StudentRow) (th : Nat) (r1 r2 : MatchResult)
    (h1 : strategy1 score row stu th = some r1)
    (_h2 : strategy2 score row stu th = some r2)
    (hne : r1 ≠ r2) :
    find_best_match score row stu th = r1 ∧
    find_best_match score row stu th ≠ r2 ∧
    (find_best_match score row stu th).match_type = "Fuzzy Name + Birthdate" := by
  have htag := strategy1_some_tag score row stu th r1 h1
  have hmain : find_best_match score row stu th = r1 := by
    unfold find_best_match
    rw [h1]
  exact ⟨hmain, by rw [hmain]; exact hne, by rw [hmain]; exact htag⟩

/-- Witness for C1 at a concrete input: the enrollee row shares the
birthdate and exact name of registry row id 1001 but carries the School ID
of registry row id 2002; the resolver returns the strategy-1 match of row
1001, not the identifier match of row 2002. -/
theorem find_best_match_strategy1_priority_witness :
    find_best_match (fun a b => if a = b then 100 else 0)
        ⟨"Jane Doe", some 10, some 2002, "nan"⟩
        [⟨some 1001, "Jane Doe", some 10, "Lincoln", some 4⟩,
         ⟨some 2002, "Bob Smith", some 99, "Oak", some 5⟩] 85 =
      ⟨"Fuzzy Name + Birthdate", "Name match score: 100.",
       some ⟨some 1001, "Jane Doe", some 10, "Lincoln", some 4⟩⟩ ∧
    find_best_match (fun a b => if a = b then 100 else 0)
        ⟨"Jane Doe", some 10, some 2002, "nan"⟩
        [⟨some 1001, "Jane Doe", some 10, "Lincoln", some 4⟩,
         ⟨some 2002, "Bob Smith", some 99, "Oak", some 5⟩] 85 ≠
      ⟨"School ID", mismatch_note 0 "Jane Doe" "Bob Smith",
       some ⟨some 2002, "Bob Smith", some 99, "Oak", some 5⟩⟩ ∧
    (find_best_match (fun a b => if a = b then 100 else 0)
        ⟨"Jane Doe", some 10, some 2002, "nan"⟩
        [⟨some 1001, "Jane Doe", some 10, "Lincoln", some 4⟩,
         ⟨some 2002, "Bob Smith", some 99, "Oak", some 5⟩] 85).match_type =
      "Fuzzy Name + Birthdate" :=
  find_best_match_strategy1_priority (fun a b => if a = b then 100 else 0)
    ⟨"Jane Doe", some 10, some 2002, "nan"⟩
    [⟨some 1001, "Jane Doe", some 10, "Lincoln", some 4⟩,
     ⟨some 2002, "Bob Smith", some 99, "Oak", some 5⟩] 85
    ⟨"Fuzzy Name + Birthdate", "Name match score: 100.",
     some ⟨some 1001, "Jane Doe", some 10, "Lincoln", some 4⟩⟩
    ⟨"School ID", mismatch_note 0 "Jane Doe" "Bob Smith",
     some ⟨some 2002, "Bob Smith", some 99, "Oak", some 5⟩⟩
    (by decide) (by decide) (by decide)

/-- C5: totality of the no-match branch — for an enrollee with null
birthdate, null identifier, and the literal "nan" site-location, the
resolver returns the No Match tag with empty notes and every registry
field null, in the same output shape as the matched branches (the result
type is the same `MatchResult` in all four branches, so this is total by
construction and never raises). -/
theorem find_best_match_no_match_total (score : String → String → Nat)
    (row : SheetRow) (stu : List StudentRow) (th : Nat)
    (hbd : row.birthdate = none) (hid : row.schoolId = none)
    (hloc : row.location = "nan") :
    find_best_match score row stu th = ⟨"No Match", "", none⟩ := by
  unfold find_best_match strategy1 strategy2 strategy3
  rw [hbd, hid, hloc]
  simp

/-- Witness for C5 at a concrete input against a non-empty registry. -/
theorem find_best_match_no_match_total_witness :
    find_best_match (fun a b => if a = b then 100 else 0)
        ⟨"Jane Doe", none, none, "nan"⟩
        [⟨some 1001, "Jane Doe", some 10, "Lincoln", some 4⟩] 85 =
      ⟨"No Match", "", none⟩ :=
  find_best_match_no_match_total (fun a b => if a = b then 100 else 0)
    ⟨"Jane Doe", none, none, "nan"⟩
    [⟨some 1001, "Jane Doe", some 10, "Lincoln", some 4⟩] 85
    rfl rfl rfl

/-- C3: under strategy 2, an enrollee with a non-null identifier whose
exact-identifier filter is non-empty is matched to the FIRST registry row
of the filter (registry iteration order), with tag School ID regardless of
the pairwise name score; the notes field is the non-empty mismatch note
exactly when that score is at or below the threshold and empty
otherwise — the match is never rejected on name disagreement. -/
theorem find_best_match_school_id_first (score : String → String → Nat)
    (row : SheetRow) (stu : List StudentRow) (th : Nat) (sid : Int)
    (m : StudentRow) (ms : List StudentRow)
    (hs1 : strategy1 score row stu th = none)
    (hid : row.schoolId = some sid)
    (hfilter : stu.filter (fun r => decide (r.ID = some sid)) = m :: ms) :
    find_best_match score row stu th =
      ⟨"School ID",
       if score row.fullname m.fullname ≤ th then
         mismatch_note (score row.fullname m.fullname) row.fullname m.fullname
       else "",
       some m⟩ ∧
    ((find_best_match score row stu th).notes ≠ "" ↔
      score row.fullname m.fullname ≤ th) := by
  have h2 : strategy2 score row stu th =
      some ⟨"School ID",
            if score row.fullname m.fullname ≤ th then
              mismatch_note (score row.fullname m.fullname) row.fullname m.fullname
            else "",
            some m⟩ := by
    unfold strategy2
    rw [hid]
    dsimp only
    rw [hfilter]
  have hmain : find_best_match score row stu th =
      ⟨"School ID",
       if score row.fullname m.fullname ≤ th then
         mismatch_note (score row.fullname m.fullname) row.fullname m.fullname
       else "",
       some m⟩ := by
    unfold find_best_match
    rw [hs1, h2]
  refine ⟨hmain, ?_⟩
  rw [hmain]
  by_cases hle : score row.fullname m.fullname ≤ th
  · rw [if_pos hle]
    exact iff_of_true (mismatch_note_ne_empty _ _ _) hle
  · rw [if_neg hle]
    exact iff_of_false (not_not_intro rfl) hle

/-- Witness for C3 at a concrete input: two registry rows share identifier
7; the first is matched, the name score 0 is at or below the threshold,
and the notes field is the non-empty mismatch note. -/
theorem find_best_match_school_id_first_witness :
    find_best_match (fun a b => if a = b then 100 else 0)
        ⟨"Jane Doe", none, some 7, "nan"⟩
        [⟨some 7, "Alice Adams", some 11, "Lincoln", some 4⟩,
         ⟨some 7, "Amy Ames", some 12, "Oak", some 5⟩] 85 =
      ⟨"School ID",
       if (if ("Jane Doe" : String) = "Alice Adams" then 100 else 0) ≤ 85 then
         mismatch_note (if ("Jane Doe" : String) = "Alice Adams" then 100 else 0)
           "Jane Doe" "Alice Adams"
       else "",
       some ⟨some 7, "Alice Adams", some 11, "Lincoln", some 4⟩⟩ ∧
    ((find_best_match (fun a b => if a = b then 100 else 0)
        ⟨"Jane Doe", none, some 7, "nan"⟩
        [⟨some 7, "Alice Adams", some 11, "Lincoln", some 4⟩,
         ⟨some 7, "Amy Ames", some 12, "Oak", some 5⟩] 85).notes ≠ "" ↔
      (if ("Jane Doe" : String) = "Alice Adams" then 100 else 0) ≤ 85) :=
  find_best_match_school_id_first (fun a b => if a = b then 100 else 0)
    ⟨"Jane Doe", none, some 7, "nan"⟩
    [⟨some 7, "Alice Adams", some 11, "Lincoln", some 4⟩,
     ⟨some 7, "Amy Ames", some 12, "Oak", some 5⟩] 85 7
    ⟨some 7, "Alice Adams", some 11, "Lincoln", some 4⟩
    [⟨some 7, "Amy Ames", some 12, "Oak", some 5⟩]
    (by decide) rfl (by decide)

/-- C4: threshold comparison boundaries. A fuzzy strategy (1 or 3) whose
best extractOne score is `s` qualifies if and only if `s` is strictly
greater than the threshold — a score exactly equal to the threshold does
not qualify — while the strategy-2 mismatch note is non-empty if and only
if the pairwise name score is less than or equal to the threshold. -/
theorem find_best_match_threshold_boundary (score : String → String → Nat)
    (row : SheetRow) (stu : List StudentRow) (th : Nat) :
    (∀ bd nm s, row.birthdate = some bd →
      extractOne score row.fullname
        ((stu.filter (fun r => decide (r.BD = some bd))).map (fun r => r.fullname)) =
        some (nm, s) →
      ((∃ r, strategy1 score row stu th = some r) ↔ s > th)) ∧
    (∀ nm s, row.location ≠ "nan" →
      extractOne score row.fullname
        ((stu.filter (fun r => decide (r.NM = row.location))).map (fun r => r.fullname)) =
        some (nm, s) →
      ((∃ r, strategy3 score row stu th = some r) ↔ s > th)) ∧
    (∀ sid m ms, row.schoolId = some sid →
      stu.filter (fun r => decide (r.ID = some sid)) = m :: ms →
      ∃ r, strategy2 score row stu th = some r ∧
        (r.notes ≠ "" ↔ score row.fullname m.fullname ≤ th)) := by
  refine ⟨?_, ?_, ?_⟩
  · intro bd nm s hbd hex
    constructor
    · rintro ⟨r, hr⟩
      unfold strategy1 at hr
      rw [hbd] at hr
      dsimp only at hr
      split at hr
      · exact absurd hr (by simp)
      · rw [hex] at hr
        dsimp only at hr
        split at hr
        · assumption
        · exact absurd hr (by simp)
    · intro hgt
      have hmem := extractOne_mem score row.fullname _ nm s hex
      have hlne : stu.filter (fun r => decide (r.BD = some bd)) ≠ [] := by
        intro h0
        rw [h0] at hmem
        simp at hmem
      rcases filter_fullname_cons _ nm hmem.1 with ⟨m, ms, hf, _⟩
      refine ⟨⟨"Fuzzy Name + Birthdate",
        "Name match score: " ++ toString s ++ ".", some m⟩, ?_⟩
      unfold strategy1
      rw [hbd]
      dsimp only
      rw [List.isEmpty_eq_false.mpr hlne]
      simp only [Bool.false_eq_true, if_false]
      rw [hex]
      dsimp only
      rw [if_pos hgt, hf]
  · intro nm s hloc hex
    constructor
    · rintro ⟨r, hr⟩
      unfold strategy3 at hr
      rw [if_neg hloc] at hr
      dsimp only at hr
      split at hr
      · exact absurd hr (by simp)
      · rw [hex] at hr
        dsimp only at hr
        split at hr
        · assumption
        · exact absurd hr (by simp)
    · intro hgt
      have hmem := extractOne_mem score row.fullname _ nm s hex
      have hlne : stu.filter (fun r => decide (r.NM = row.location)) ≠ [] := by
        intro h0
        rw [h0] at hmem
        simp at hmem
      rcases filter_fullname_cons _ nm hmem.1 with ⟨m, ms, hf, _⟩
      refine ⟨⟨"Fuzzy Name + Location",
        "Name match score: " ++ toString s ++ ".", some m⟩, ?_⟩
      unfold strategy3
      rw [if_neg hloc]
      dsimp only
      rw [List.isEmpty_eq_false.mpr hlne]
      simp only [Bool.false_eq_true, if_false]
      rw [hex]
      dsimp only
      rw [if_pos hgt, hf]
  · intro sid m ms hid hfilter
    refine ⟨⟨"School ID",
      if score row.fullname m.fullname ≤ th then
        mismatch_note (score row.fullname m.fullname) row.fullname m.fullname
      else "",
      some m⟩, ?_, ?_⟩
    · unfold strategy2
      rw [hid]
      dsimp only
      rw [hfilter]
    · by_cases hle : score row.fullname m.fullname ≤ th
      · rw [if_pos hle]
        exact iff_of_true (mismatch_note_ne_empty _ _ _) hle
      · rw [if_neg hle]
        exact iff_of_false (not_not_intro rfl) hle

/-- Witness for C4 at a concrete input: with a constant scorer returning
exactly the threshold 85, neither fuzzy strategy qualifies (85 is not
strictly greater than 85), while the strategy-2 match carries a non-empty
mismatch note (85 is less than or equal to 85). -/
theorem find_best_match_threshold_boundary_witness :
    ((∃ r, strategy1 (fun _ _ => 85)
        ⟨"Jane Doe", some 10, some 7, "Lincoln"⟩
        [⟨some 7, "Alice Adams", some 10, "Lincoln", some 4⟩] 85 = some r) ↔
      85 > 85) ∧
    ((∃ r, strategy3 (fun _ _ => 85)
        ⟨"Jane Doe", some 10, some 7, "Lincoln"⟩
        [⟨some 7, "Alice Adams", some 10, "Lincoln", some 4⟩] 85 = some r) ↔
      85 > 85) ∧
    (∃ r, strategy2 (fun _ _ => 85)
        ⟨"Jane Doe", some 10, some 7, "Lincoln"⟩
        [⟨some 7, "Alice Adams", some 10, "Lincoln", some 4⟩] 85 = some r ∧
      (r.notes ≠ "" ↔ (85 : Nat) ≤ 85)) :=
  ⟨(find_best_match_threshold_boundary (fun _ _ => 85)
      ⟨"Jane Doe", some 10, some 7, "Lincoln"⟩
      [⟨some 7, "Alice Adams", some 10, "Lincoln", some 4⟩] 85).1
      10 "Alice Adams" 85 rfl (by decide),
   (find_best_match_threshold_boundary (fun _ _ => 85)
      ⟨"Jane Doe", some 10, some 7, "Lincoln"⟩
      [⟨some 7, "Alice Adams", some 10, "Lincoln", some 4⟩] 85).2.1
      "Alice Adams" 85 (by decide) (by decide),
   (find_best_match_threshold_boundary (fun _ _ => 85)
      ⟨"Jane Doe", some 10, some 7, "Lincoln"⟩
      [⟨some 7, "Alice Adams", some 10, "Lincoln", some 4⟩] 85).2.2
      7 ⟨some 7, "Alice Adams", some 10, "Lincoln", some 4⟩ [] rfl (by decide)⟩

/-! Helper lemmas about the enrollment writer. -/

/-- After inserting an event with key (i, pgm), the existence check for
that key succeeds. -/
theorem pgm_code_check_insert_self (db : DB) (i sq pgm : Int) (d : Option Nat) :
    pgm_code_check (insert_pgm db ⟨i, sq, pgm, d⟩) i pgm = true := by
  simp [pgm_code_check, insert_pgm, List.any_append]

/-- The maximum sequence number of an empty event list does not exist. -/
theorem maxSq_nil_iff (l : List Event) : maxSq l = none ↔ l = [] := by
  cases l with
  | nil => simp [maxSq]
  | cons e es =>
    simp only [maxSq]
    cases maxSq es <;> simp

/-- Every event in the list has sequence number at most the maximum. -/
theorem maxSq_le (l : List Event) (m : Int) (hm : maxSq l = some m) :
    ∀ e ∈ l, e.sq ≤ m := by
  induction l generalizing m with
  | nil => simp [maxSq] at hm
  | cons c cs ih =>
    intro e he
    unfold maxSq at hm
    cases hrec : maxSq cs with
    | none =>
      rw [hrec] at hm
      simp at hm
      have : cs = [] := (maxSq_nil_iff cs).mp hrec
      subst this
      rcases List.mem_singleton.mp he with rfl
      omega
    | some m2 =>
      rw [hrec] at hm
      simp at hm
      rcases List.mem_cons.mp he with rfl | he2
      · omega
      · have := ih m2 hrec e he2
        omega

/-- The maximum sequence number is realized by some event of the list. -/
theorem maxSq_mem (l : List Event) (m : Int) (hm : maxSq l = some m) :
    ∃ e ∈ l, e.sq = m := by
  induction l generalizing m with
  | nil => simp [maxSq] at hm
  | cons c cs ih =>
    unfold maxSq at hm
    cases hrec : maxSq cs with
    | none =>
      rw [hrec] at hm
      simp at hm
      exact ⟨c, List.mem_cons_self _ _, hm⟩
    | some m2 =>
      rw [hrec] at hm
      simp at hm
      rcases max_cases c.sq m2 with ⟨hmax, _⟩ | ⟨hmax, _⟩
      · exact ⟨c, List.mem_cons_self _ _, by omega⟩
      · rcases ih m2 hrec with ⟨e, he, hesq⟩
        exact ⟨e, List.mem_cons_of_mem _ he, by omega⟩

/-- When the student has no prior events the next sequence number is 1. -/
theorem get_next_pgm_sq_of_none (db : DB) (i : Int)
    (h : last_pgm_sq db i = none) : get_next_pgm_sq db i = 1 := by
  unfold get_next_pgm_sq
  rw [h]

/-- When the student has a highest prior sequence number m the next
sequence number is m + 1. -/
theorem get_next_pgm_sq_of_some (db : DB) (i : Int) (m : Int)
    (h : last_pgm_sq db i = some m) : get_next_pgm_sq db i = m + 1 := by
  unfold get_next_pgm_sq
  rw [h]

/-- C6: the next sequence number for a student is one more than the
highest sequence number recorded for that identifier across any program
code, or 1 when the student has no prior events. -/
theorem get_next_pgm_sq_spec (db : DB) (i : Int) :
    (db.events.filter (fun e => decide (e.id = i)) = [] →
      get_next_pgm_sq db i = 1) ∧
    (∀ e ∈ db.events, e.id = i → e.sq < get_next_pgm_sq db i) ∧
    ((∃ e ∈ db.events, e.id = i) →
      ∃ e ∈ db.events, e.id = i ∧ get_next_pgm_sq db i = e.sq + 1) := by
  refine ⟨?_, ?_, ?_⟩
  · intro hnil
    refine get_next_pgm_sq_of_none db i ?_
    unfold last_pgm_sq
    rw [hnil]
    rfl
  · intro e he hei
    have hef : e ∈ db.events.filter (fun e => decide (e.id = i)) :=
      List.mem_filter.mpr ⟨he, by simp [hei]⟩
    cases hmx : maxSq (db.events.filter (fun e => decide (e.id = i))) with
    | none =>
      rw [(maxSq_nil_iff _).mp hmx] at hef
      simp at hef
    | some m =>
      have hle := maxSq_le _ m hmx e hef
      rw [get_next_pgm_sq_of_some db i m hmx]
      omega
  · rintro ⟨e, he, hei⟩
    have hef : e ∈ db.events.filter (fun e => decide (e.id = i)) :=
      List.mem_filter.mpr ⟨he, by simp [hei]⟩
    cases hmx : maxSq (db.events.filter (fun e => decide (e.id = i))) with
    | none =>
      rw [(maxSq_nil_iff _).mp hmx] at hef
      simp at hef
    | some m =>
      rcases maxSq_mem _ m hmx with ⟨e2, he2, hsq⟩
      have he2m := List.mem_filter.mp he2
      refine ⟨e2, he2m.1, by simpa using he2m.2, ?_⟩
      rw [get_next_pgm_sq_of_some db i m hmx]
      omega

/-- Witness for C6 at a concrete input: a student with sequence numbers
1, 2, 3 recorded under three different program codes gets 4 as the next
sequence number; a fresh student gets 1. -/
theorem get_next_pgm_sq_spec_witness :
    get_next_pgm_sq ⟨[⟨5, 1, 194, none⟩, ⟨5, 2, 200, none⟩, ⟨5, 3, 300, none⟩]⟩ 5 = 4 ∧
    get_next_pgm_sq ⟨[⟨5, 1, 194, none⟩, ⟨5, 2, 200, none⟩, ⟨5, 3, 300, none⟩]⟩ 9 = 1 ∧
    (3 : Int) <
      get_next_pgm_sq ⟨[⟨5, 1, 194, none⟩, ⟨5, 2, 200, none⟩, ⟨5, 3, 300, none⟩]⟩ 5 :=
  ⟨by decide,
   (get_next_pgm_sq_spec ⟨[⟨5, 1, 194, none⟩, ⟨5, 2, 200, none⟩, ⟨5, 3, 300, none⟩]⟩ 9).1
     (by decide),
   (get_next_pgm_sq_spec ⟨[⟨5, 1, 194, none⟩, ⟨5, 2, 200, none⟩, ⟨5, 3, 300, none⟩]⟩ 5).2.1
     ⟨5, 3, 300, none⟩ (by decide) rfl⟩

/-- C2: the Enrollment Writer is idempotent per (identifier,
program_code). A row whose (id, pgm_code) event already exists is skipped
with no insert; a fresh row is inserted exactly once (one new event), and
running the same single-row batch again on the resulting database detects
the existing event and performs zero inserts. -/
theorem add_program_batch_idempotent (pgm : Int) (db : DB) (row : MatchedRow)
    (i : Int) (d : Option Nat)
    (hid : row.ID = some i)
    (hdate : to_datetime row.startDate = Except.ok d) :
    (pgm_code_check db i pgm = true →
      add_program_batch (fun _ => false) pgm [row] db [] = .ok (db, [])) ∧
    (pgm_code_check db i pgm = false →
      add_program_batch (fun _ => false) pgm [row] db [] =
        .ok (insert_pgm db ⟨i, get_next_pgm_sq db i, pgm, d⟩, []) ∧
      (insert_pgm db ⟨i, get_next_pgm_sq db i, pgm, d⟩).events.length =
        db.events.length + 1 ∧
      add_program_batch (fun _ => false) pgm [row]
        (insert_pgm db ⟨i, get_next_pgm_sq db i, pgm, d⟩) [] =
        .ok (insert_pgm db ⟨i, get_next_pgm_sq db i, pgm, d⟩, [])) := by
  constructor
  · intro hchk
    unfold add_program_batch
    rw [hid]
    dsimp only
    rw [hchk]
    simp [add_program_batch]
  · intro hchk
    refine ⟨?_, by simp [insert_pgm], ?_⟩
    · unfold add_program_batch
      rw [hid]
      dsimp only
      rw [hchk]
      simp only [Bool.false_eq_true, if_false]
      rw [hdate]
      simp [add_program_batch]
    · unfold add_program_batch
      rw [hid]
      dsimp only
      rw [pgm_code_check_insert_self db i (get_next_pgm_sq db i) pgm d]
      simp [add_program_batch]

/-- Witness for C2 at a concrete input: inserting student 5 into an empty
event table for program 194 adds one event; repeating the call performs no
further insert. -/
theorem add_program_batch_idempotent_witness :
    add_program_batch (fun _ => false) 194 [⟨some 5, .valid 100⟩] ⟨[]⟩ [] =
      .ok (⟨[⟨5, 1, 194, some 100⟩]⟩, []) ∧
    (⟨[⟨5, 1, 194, some 100⟩]⟩ : DB).events.length = ([] : List Event).length + 1 ∧
    add_program_batch (fun _ => false) 194 [⟨some 5, .valid 100⟩]
      ⟨[⟨5, 1, 194, some 100⟩]⟩ [] = .ok (⟨[⟨5, 1, 194, some 100⟩]⟩, []) :=
  (add_program_batch_idempotent 194 ⟨[]⟩ ⟨some 5, .valid 100⟩ 5 (some 100)
    rfl rfl).2 rfl

/-- C8 counterexample: the claim states that a missing OR UNPARSEABLE
enrollment-start date is persisted as an explicit null and that the writer
does not raise on such a date. On a matched row with a valid identifier
and an unparseable date the writer raises (src/main.py line 259 calls
`to_datetime` without `errors` set to coerce, so pandas raises), inserting
nothing: the batch ends in the exception state with the event table
unchanged, not in a normal return with a null date. -/
theorem add_program_batch_unparseable_date_counterexample :
    add_program_batch (fun _ => false) 194
        [⟨some 5, .invalid "garbage"⟩] ⟨[]⟩ [] = .error ⟨[]⟩ ∧
    add_program_batch (fun _ => false) 194
        [⟨some 5, .invalid "garbage"⟩] ⟨[]⟩ [] ≠
      .ok (⟨[⟨5, 1, 194, none⟩]⟩, []) := by
  constructor
  · rfl
  · intro h
    exact Except.noConfusion ((rfl :
      add_program_batch (fun _ => false) 194
        [⟨some 5, .invalid "garbage"⟩] ⟨[]⟩ [] = .error ⟨[]⟩).symm.trans h)

/-- C8 amended: for a matched row with a valid identifier and no existing
(id, pgm_code) event, a MISSING enrollment-start date is persisted as an
explicit null (the inserted event's start field is `none`, never a
sentinel date) and the writer returns normally; an UNPARSEABLE date,
however, raises out of the writer (pandas `to_datetime` with its default
raise behavior), aborting the batch with the event table as committed so
far. -/
theorem add_program_batch_start_date (pgm : Int) (db : DB) (row : MatchedRow)
    (i : Int)
    (hid : row.ID = some i)
    (hchk : pgm_code_check db i pgm = false) :
    (row.startDate = .missing →
      add_program_batch (fun _ => false) pgm [row] db [] =
        .ok (insert_pgm db ⟨i, get_next_pgm_sq db i, pgm, none⟩, [])) ∧
    (∀ s, row.startDate = .invalid s →
      add_program_batch (fun _ => false) pgm [row] db [] = .error db) := by
  constructor
  · intro hmiss
    unfold add_program_batch
    rw [hid]
    dsimp only
    rw [hchk]
    simp only [Bool.false_eq_true, if_false]
    rw [hmiss]
    simp [to_datetime, add_program_batch]
  · intro s hinv
    unfold add_program_batch
    rw [hid]
    dsimp only
    rw [hchk]
    simp only [Bool.false_eq_true, if_false]
    rw [hinv]
    simp [to_datetime]

/-- Witness for the amended C8 at a concrete input: a missing date is
inserted as a null start field; an unparseable date raises. -/
theorem add_program_batch_start_date_witness :
    add_program_batch (fun _ => false) 194 [⟨some 5, .missing⟩] ⟨[]⟩ [] =
      .ok (⟨[⟨5, 1, 194, none⟩]⟩, []) ∧
    add_program_batch (fun _ => false) 194 [⟨some 5, .invalid "garbage"⟩] ⟨[]⟩ [] =
      .error ⟨[]⟩ :=
  ⟨(add_program_batch_start_date 194 ⟨[]⟩ ⟨some 5, .missing⟩ 5 rfl rfl).1 rfl,
   (add_program_batch_start_date 194 ⟨[]⟩ ⟨some 5, .invalid "garbage"⟩ 5 rfl rfl).2
     "garbage" rfl⟩

/-- C9 counterexample: the claim states that after a database failure on
one row, processing continues to the NEXT ROW of the same batch. With a
fault on the insert for student 1, the two-row batch [student 1,
student 2] aborts with no event written at all — row 2 is never reached —
although the single-row batch [student 2] under the same fault succeeds
and inserts student 2. `add_program_batch` has no per-row exception
handler; the exception propagates to the per-FILE handler of
`process_enrollment_folder`. -/
theorem add_program_batch_abort_counterexample :
    add_program_batch (fun e => decide (e.id = 1)) 194
        [⟨some 1, .valid 10⟩, ⟨some 2, .valid 20⟩] ⟨[]⟩ [] = .error ⟨[]⟩ ∧
    add_program_batch (fun e => decide (e.id = 1)) 194
        [⟨some 2, .valid 20⟩] ⟨[]⟩ [] = .ok (⟨[⟨2, 1, 194, some 20⟩]⟩, []) := by
  constructor <;> rfl

/-- C9 amended: when a database operation fails while the Enrollment
Writer processes one row of a file's batch, that row is not inserted and
the REMAINDER OF THAT BATCH IS ABANDONED (the exception propagates out of
`add_program_batch`); the rows committed before the failure remain
committed; the orchestrating loop catches the exception, does not add the
file to the processed-file ledger, and continues with the next file — so
the failed file is retried in full on a later run. -/
theorem process_enrollment_folder_write_error (failInsert : Event → Bool)
    (pgm : Int) (f : FileJob) (fs : List FileJob) (db dbAfter : DB)
    (ledger : List String)
    (herr : add_program_batch failInsert pgm f.rows db [] = .error dbAfter) :
    process_enrollment_folder failInsert pgm (f :: fs) db ledger =
      process_enrollment_folder failInsert pgm fs dbAfter ledger ∧
    process_enrollment_folder failInsert pgm [f] db ledger = (dbAfter, ledger) := by
  have hstep : ∀ (fs2 : List FileJob),
      process_enrollment_folder failInsert pgm (f :: fs2) db ledger =
        match add_program_batch failInsert pgm f.rows db [] with
        | .error d2 => process_enrollment_folder failInsert pgm fs2 d2 ledger
        | .ok (d2, _) =>
          process_enrollment_folder failInsert pgm fs2 d2 (ledger ++ [f.name]) :=
    fun _ => rfl
  constructor
  · rw [hstep fs, herr]
  · rw [hstep [], herr]
    rfl

/-- Witness for the amended C9 at a concrete input: a folder with a
failing file followed by a healthy file keeps the failing file out of the
ledger and still processes the next file. -/
theorem process_enrollment_folder_write_error_witness :
    process_enrollment_folder (fun e => decide (e.id = 1)) 194
        [⟨"enrollment_a.csv", [⟨some 1, .valid 10⟩]⟩,
         ⟨"enrollment_b.csv", [⟨some 2, .valid 20⟩]⟩] ⟨[]⟩ [] =
      process_enrollment_folder (fun e => decide (e.id = 1)) 194
        [⟨"enrollment_b.csv", [⟨some 2, .valid 20⟩]⟩] ⟨[]⟩ [] ∧
    process_enrollment_folder (fun e => decide (e.id = 1)) 194
        [⟨"enrollment_a.csv", [⟨some 1, .valid 10⟩]⟩] ⟨[]⟩ [] = (⟨[]⟩, []) :=
  process_enrollment_folder_write_error (fun e => decide (e.id = 1)) 194
    ⟨"enrollment_a.csv", [⟨some 1, .valid 10⟩]⟩
    [⟨"enrollment_b.csv", [⟨some 2, .valid 20⟩]⟩] ⟨[]⟩ ⟨[]⟩ [] rfl

/-- One unfolding step of `add_program_batch` on a non-empty batch. -/
theorem add_program_batch_cons (failInsert : Event → Bool) (pgm : Int)
    (row : MatchedRow) (rest : List MatchedRow) (db : DB)
    (rej : List MatchedRow) :
    add_program_batch failInsert pgm (row :: rest) db rej =
      match row.ID with
      | none => add_program_batch failInsert pgm rest db (rej ++ [row])
      | some i =>
        if pgm_code_check db i pgm then
          add_program_batch failInsert pgm rest db rej
        else
          match to_datetime row.startDate with
          | .error _ => .error db
          | .ok d =>
            if failInsert ⟨i, get_next_pgm_sq db i, pgm, d⟩ then .error db
            else
              add_program_batch failInsert pgm rest
                (insert_pgm db ⟨i, get_next_pgm_sq db i, pgm, d⟩) rej := rfl

/-- Appending an event whose (id, pgm) key does not occur in the list
preserves key uniqueness. -/
theorem no_dup_key_append (es : List Event) (i pgm sq : Int) (d : Option Nat)
    (h : no_dup_key es = true)
    (hch : es.any (fun e => decide (e.id = i ∧ e.pgm = pgm)) = false) :
    no_dup_key (es ++ [⟨i, sq, pgm, d⟩]) = true := by
  induction es with
  | nil => simp [no_dup_key]
  | cons c cs ih =>
    simp only [no_dup_key, Bool.and_eq_true, Bool.not_eq_true'] at h
    simp only [List.any_cons, Bool.or_eq_false_iff] at hch
    simp only [List.cons_append, no_dup_key, Bool.and_eq_true, Bool.not_eq_true']
    refine ⟨?_, ih h.2 hch.2⟩
    simp only [List.append_eq, List.any_append]
    simp only [Bool.or_eq_false_iff]
    refine ⟨h.1, ?_⟩
    simp only [List.any_cons, List.any_nil, Bool.or_false]
    simp only [decide_eq_false_iff_not] at hch ⊢
    intro hcon
    exact hch.1 ⟨hcon.1.symm, hcon.2.symm⟩

/-- Both normal and exceptional exits of `add_program_batch` preserve key
uniqueness of the event table (helper induction). -/
theorem add_program_batch_no_dup_aux (failInsert : Event → Bool) (pgm : Int) :
    ∀ (rows : List MatchedRow) (db : DB) (rej : List MatchedRow),
      no_dup_key db.events = true →
      (∀ db2 rej2,
        add_program_batch failInsert pgm rows db rej = .ok (db2, rej2) →
        no_dup_key db2.events = true) ∧
      (∀ db2,
        add_program_batch failInsert pgm rows db rej = .error db2 →
        no_dup_key db2.events = true) := by
  intro rows
  induction rows with
  | nil =>
    intro db rej hinv
    constructor
    · intro db2 rej2 h
      simp only [add_program_batch, Except.ok.injEq, Prod.mk.injEq] at h
      rw [← h.1]
      exact hinv
    · intro db2 h
      simp [add_program_batch] at h
  | cons row rest ih =>
    intro db rej hinv
    cases hid : row.ID with
    | none =>
      rw [add_program_batch_cons]
      rw [hid]
      exact ih db (rej ++ [row]) hinv
    | some i =>
      rw [add_program_batch_cons, hid]
      dsimp only
      by_cases hchk : pgm_code_check db i pgm
      · rw [if_pos hchk]
        exact ih db rej hinv
      · rw [if_neg hchk]
        cases hdt : to_datetime row.startDate with
        | error s =>
          refine ⟨?_, ?_⟩
          · intro db2 rej2 h
            simp at h
          · intro db2 h
            simp only [Except.error.injEq] at h
            rw [← h]
            exact hinv
        | ok d =>
          dsimp only
          by_cases hfail : failInsert ⟨i, get_next_pgm_sq db i, pgm, d⟩ = true
          · rw [if_pos hfail]
            refine ⟨?_, ?_⟩
            · intro db2 rej2 h
              simp at h
            · intro db2 h
              simp only [Except.error.injEq] at h
              rw [← h]
              exact hinv
          · rw [if_neg hfail]
            have hch : db.events.any
                (fun e => decide (e.id = i ∧ e.pgm = pgm)) = false := by
              rw [Bool.eq_false_iff]
              intro hc
              exact hchk hc
            have hinv2 : no_dup_key
                (insert_pgm db ⟨i, get_next_pgm_sq db i, pgm, d⟩).events = true :=
              no_dup_key_append db.events i pgm (get_next_pgm_sq db i) d hinv hch
            exact ih (insert_pgm db ⟨i, get_next_pgm_sq db i, pgm, d⟩) rej hinv2

/-- C10: duplicate identifiers are deduplicated WITHIN one `write_batch`
call as well: each insert is committed before the next row's existence
check, so if the at-most-one-event-per-(id, pgm_code) invariant holds when
the batch starts it holds after every exit of the batch (normal or
exceptional), and in a two-row batch sharing one identifier the second
row is skipped by the existence check, leaving exactly the first row's
event. -/
theorem add_program_batch_in_batch_dedup (failInsert : Event → Bool)
    (pgm : Int) (rows : List MatchedRow) (db : DB) (rej : List MatchedRow)
    (hinv : no_dup_key db.events = true) :
    (∀ db2 rej2,
      add_program_batch failInsert pgm rows db rej = .ok (db2, rej2) →
      no_dup_key db2.events = true) ∧
    (∀ db2,
      add_program_batch failInsert pgm rows db rej = .error db2 →
      no_dup_key db2.events = true) ∧
    (∀ r1 r2 i d1, r1.ID = some i → r2.ID = some i →
      pgm_code_check db i pgm = false →
      to_datetime r1.startDate = Except.ok d1 →
      failInsert ⟨i, get_next_pgm_sq db i, pgm, d1⟩ = false →
      add_program_batch failInsert pgm [r1, r2] db rej =
        .ok (insert_pgm db ⟨i, get_next_pgm_sq db i, pgm, d1⟩, rej)) := by
  obtain ⟨hok, herr⟩ := add_program_batch_no_dup_aux failInsert pgm rows db rej hinv
  refine ⟨hok, herr, ?_⟩
  intro r1 r2 i d1 h1 h2 hchk hdt hfail
  rw [add_program_batch_cons, h1]
  dsimp only
  rw [if_neg (by rw [hchk]; exact Bool.false_ne_true), hdt]
  dsimp only
  rw [if_neg (by rw [hfail]; exact Bool.false_ne_true)]
  rw [add_program_batch_cons, h2]
  dsimp only
  rw [if_pos (pgm_code_check_insert_self db i (get_next_pgm_sq db i) pgm d1)]
  rfl

/-- Witness for C10 at a concrete input: a two-row batch for the same
student 5 on an empty table inserts exactly one event, and the resulting
table still has unique (id, pgm_code) keys. -/
theorem add_program_batch_in_batch_dedup_witness :
    add_program_batch (fun _ => false) 194
        [⟨some 5, .valid 10⟩, ⟨some 5, .valid 20⟩] ⟨[]⟩ [] =
      .ok (⟨[⟨5, 1, 194, some 10⟩]⟩, []) ∧
    no_dup_key (⟨[⟨5, 1, 194, some 10⟩]⟩ : DB).events = true := by
  have h := add_program_batch_in_batch_dedup (fun _ => false) 194
    [⟨some 5, .valid 10⟩, ⟨some 5, .valid 20⟩] ⟨[]⟩ [] rfl
  have h3 := h.2.2 ⟨some 5, .valid 10⟩ ⟨some 5, .valid 20⟩ 5 (some 10)
    rfl rfl rfl rfl rfl
  exact ⟨h3, h.1 ⟨[⟨5, 1, 194, some 10⟩]⟩ [] h3⟩

/-- C7 counterexample: the claim states that the Grade Normalizer maps
every token "0" through "9" and "10" to the corresponding integer and
"-1JK" and "-1" to -1, citing both grade dictionaries. The `grade_map`
dict of src/main.py has no entries for "0", "10", "-1JK" or "-1", so those
tokens map to null there, while the `GRADE_MAP` dict of
src/process_enrollments.py maps "10" to 10 as claimed — the two
normalizers disagree and main.py violates the stated table. -/
theorem grade_map_counterexample :
    grade_map "10" = none ∧ GRADE_MAP "10" = some 10 ∧
    grade_map "0" = none ∧ grade_map "-1JK" = none ∧ grade_map "-1" = none := by
  refine ⟨?_, ?_, ?_, ?_, ?_⟩ <;> rfl

/-- C7 amended: the `GRADE_MAP` dict of src/process_enrollments.py
implements exactly the stated lookup table — "0" through "9" and "10" map
to the corresponding integer, "0K" to 0, "00JK", "-1JK" and "-1" to -1,
and every other token to null — while the `grade_map` dict of src/main.py
implements only the sub-table with keys "1" through "9", "0K" and "00JK",
sending "0", "10", "-1JK", "-1" and every other token to null. Both are
total lookups and never raise. -/
theorem grade_normalizer_tables :
    (GRADE_MAP "0" = some 0 ∧ GRADE_MAP "1" = some 1 ∧ GRADE_MAP "2" = some 2 ∧
     GRADE_MAP "3" = some 3 ∧ GRADE_MAP "4" = some 4 ∧ GRADE_MAP "5" = some 5 ∧
     GRADE_MAP "6" = some 6 ∧ GRADE_MAP "7" = some 7 ∧ GRADE_MAP "8" = some 8 ∧
     GRADE_MAP "9" = some 9 ∧ GRADE_MAP "10" = some 10 ∧ GRADE_MAP "0K" = some 0 ∧
     GRADE_MAP "00JK" = some (-1) ∧ GRADE_MAP "-1JK" = some (-1) ∧
     GRADE_MAP "-1" = some (-1)) ∧
    (∀ s, s ∉ (["0", "1", "2", "3", "4", "5", "6", "7", "8", "9", "10",
        "0K", "00JK", "-1JK", "-1"] : List String) → GRADE_MAP s = none) ∧
    (grade_map "1" = some 1 ∧ grade_map "2" = some 2 ∧ grade_map "3" = some 3 ∧
     grade_map "4" = some 4 ∧ grade_map "5" = some 5 ∧ grade_map "6" = some 6 ∧
     grade_map "7" = some 7 ∧ grade_map "8" = some 8 ∧ grade_map "9" = some 9 ∧
     grade_map "0K" = some 0 ∧ grade_map "00JK" = some (-1)) ∧
    (∀ s, s ∉ (["8", "3", "2", "4", "5", "6", "7", "1", "9", "00JK",
        "0K"] : List String) → grade_map s = none) := by
  refine ⟨by decide, ?_, by decide, ?_⟩
  · intro s hs
    simp only [List.mem_cons, List.not_mem_nil, or_false, not_or] at hs
    obtain ⟨h0, h1, h2, h3, h4, h5, h6, h7, h8, h9, h10, hk, hjk, hm1jk, hm1⟩ := hs
    simp [GRADE_MAP, h0, h1, h2, h3, h4, h5, h6, h7, h8, h9, h10, hk, hjk,
      hm1jk, hm1]
  · intro s hs
    simp only [List.mem_cons, List.not_mem_nil, or_false, not_or] at hs
    obtain ⟨h8, h3, h2, h4, h5, h6, h7, h1, h9, hjk, hk⟩ := hs
    simp [grade_map, h8, h3, h2, h4, h5, h6, h7, h1, h9, hjk, hk]

/-- Witness for the amended C7 at concrete inputs, including the spec
examples normalize("0K") = 0, normalize("00JK") = -1, normalize("7") = 7
and the unknown token "zz" mapping to null in both dictionaries. -/
theorem grade_normalizer_tables_witness :
    GRADE_MAP "0K" = some 0 ∧ GRADE_MAP "00JK" = some (-1) ∧
    GRADE_MAP "7" = some 7 ∧ GRADE_MAP "zz" = none ∧ grade_map "zz" = none :=
  ⟨grade_normalizer_tables.1.2.2.2.2.2.2.2.2.2.2.2.1,
   grade_normalizer_tables.1.2.2.2.2.2.2.2.2.2.2.2.2.1,
   grade_normalizer_tables.1.2.2.2.2.2.2.2.1,
   grade_normalizer_tables.2.1 "zz" (by decide),
   grade_normalizer_tables.2.2.2 "zz" (by decide)⟩

end BGCSL
